import Mathlib

/-!
Verification development for an interactive CLI tool that assembles a
library-metadata record for a CDN package index (source: src/index.js).

The JavaScript source is shallowly embedded: pure data transformations
become Lean functions; console interaction is modelled by passing the
sequence of user responses (or their results) as explicit arguments;
remote collaborators (registry fetch, glob matching, pull-request
creation) are modelled as explicit input documents or function
parameters; JavaScript exceptions are modelled with Except.
-/

/-! ## Basic JavaScript value helpers -/

/-- Truthiness of a possibly-absent JavaScript string value:
`none` models `undefined` (falsy); a present string is truthy iff
non-empty. -/
def jsTruthyStr : Option String → Bool
  | none => false
  | some s => !s.isEmpty

/-- Models a JavaScript `x || dflt` fallback where `x` is a
possibly-absent string (`undefined` or the empty string fall through to
the default). -/
def jsOrStr (o : Option String) (dflt : String) : String :=
  match o with
  | some s => if s.isEmpty then dflt else s
  | none => dflt

/-- Models `x || dflt` where `x` is a possibly-absent array: a present
array (even empty) is truthy in JavaScript, so only absence falls
through. -/
def jsOrList (o : Option (List String)) (dflt : List String) : List String :=
  match o with
  | some l => l
  | none => dflt

/-! ## Author model (src/index.js transformAuthors, lines 247-266) -/

/-- A raw author as it appears in registry metadata: either a plain
string of the shape `Name <email> (url)` or an object with optional
`name`/`email`/`url`/`homepage` keys (a `none` field models an absent
key, `some ""` a present-but-empty one). -/
inductive JsAuthor where
  | str (s : String)
  | obj (name email url homepage : Option String)
deriving DecidableEq

/-- A cleaned author object: each field is present (`some`) exactly when
the corresponding key survived the `delete data[key]` cleanup. -/
structure AuthorObj where
  name : Option String
  email : Option String
  url : Option String
deriving DecidableEq

/-- Models the cleanup loop of transformAuthors: a falsy (empty) string
field is deleted from the result object. -/
def cleanField (s : String) : Option String :=
  if s.isEmpty then none else some s

/-! ### The three regular expressions of transformAuthors

The source extracts email, url and name from the author string with

  email: `^.*?((?: <.+>)?)(?: \(.+\))?$`   (group 1)
  url:   `^.*?((?: \(.+\))?)(?: <.+>)?$`   (group 1)
  name:  `^(.*?)(?:(?: \(.+\))|(?: <.+>)){0,2}$` (group 1)

The functions below reproduce JavaScript backtracking for these three
anchored patterns: the lazy `.*?` tries the shortest prefix first, the
optional/greedy pieces try the longest content first, and `.` never
matches a newline. -/

/-- No character of the list is a newline (`.` in a JavaScript regex
without the `s` flag cannot match a newline). -/
def noNl (l : List Char) : Bool := l.all fun c => c != '\n'

/-- All ways to split `t` as `pre ++ cl :: rest`, in ascending order of
the length of `pre`. -/
def splitsAsc (cl : Char) : List Char → List (List Char × List Char)
  | [] => []
  | c :: t =>
    (if c = cl then [(([] : List Char), t)] else [])
      ++ (splitsAsc cl t).map fun p => (c :: p.1, p.2)

/-- The candidate contents for a greedy `.+` followed by the closing
character `cl`: nonempty, newline-free, longest first (the order in
which JavaScript backtracking tries them). -/
def splitsGreedy (cl : Char) (t : List Char) : List (List Char × List Char) :=
  ((splitsAsc cl t).filter fun p => !p.1.isEmpty && noNl p.1).reverse

/-- Does the trailing pattern `(?: \(.+\))?$` match the remainder `l`?
Either `l` is empty, or it is one whole ` (content)` segment with
nonempty newline-free content. -/
def tParen : List Char → Bool
  | [] => true
  | ' ' :: '(' :: t => !t.dropLast.isEmpty && t.getLastD ' ' == ')' && noNl t.dropLast
  | _ => false

/-- Does the trailing pattern `(?: <.+>)?$` match the remainder `l`? -/
def tAngle : List Char → Bool
  | [] => true
  | ' ' :: '<' :: t => !t.dropLast.isEmpty && t.getLastD ' ' == '>' && noNl t.dropLast
  | _ => false

/-- Match attempt for `((?: <.+>)?)(?: \(.+\))?$` at one position:
returns the email-regex group-1 content (the text between `<` and `>`;
`some []` when the optional group matched empty), or `none` when the
tail does not match here. -/
def r1At : List Char → Option (List Char)
  | ' ' :: '<' :: t =>
    match (splitsGreedy '>' t).find? (fun p => tParen p.2) with
    | some p => some p.1
    | none => if tParen (' ' :: '<' :: t) then some [] else none
  | l => if tParen l then some [] else none

/-- Full email-regex match: the lazy `.*?` scans positions left to
right (never across a newline) and the first position where the tail
matches wins; `none` models a failed match (`String.match` returning
`null`). -/
def r1Scan (l : List Char) : Option (List Char) :=
  match r1At l with
  | some c => some c
  | none =>
    match l with
    | [] => none
    | c :: t => if c = '\n' then none else r1Scan t

/-- Match attempt for `((?: \(.+\))?)(?: <.+>)?$` at one position (the
url regex, symmetric to `r1At`). -/
def r2At : List Char → Option (List Char)
  | ' ' :: '(' :: t =>
    match (splitsGreedy ')' t).find? (fun p => tAngle p.2) with
    | some p => some p.1
    | none => if tAngle (' ' :: '(' :: t) then some [] else none
  | l => if tAngle l then some [] else none

/-- Full url-regex match, scanning like `r1Scan`. -/
def r2Scan (l : List Char) : Option (List Char) :=
  match r2At l with
  | some c => some c
  | none =>
    match l with
    | [] => none
    | c :: t => if c = '\n' then none else r2Scan t

/-- The possible remainders after consuming one ` (.+)` or ` <.+>`
segment at the front of `l`, in backtracking order. -/
def segSplit : List Char → List (List Char)
  | ' ' :: '(' :: t => (splitsGreedy ')' t).map fun p => p.2
  | ' ' :: '<' :: t => (splitsGreedy '>' t).map fun p => p.2
  | _ => []

/-- Can `l` be consumed entirely by zero, one or two trailing segments
(the `(?:(?: \(.+\))|(?: <.+>)){0,2}$` part of the name regex)? -/
def segs2 (l : List Char) : Bool :=
  l.isEmpty || (segSplit l).any fun r => r.isEmpty || (segSplit r).any List.isEmpty

/-- Name-regex scan: group 1 is the shortest newline-free prefix whose
remainder is consumed by at most two trailing segments; `acc` holds the
reversed prefix scanned so far. -/
def r3Scan (acc : List Char) (l : List Char) : Option (List Char) :=
  if segs2 l then some acc.reverse
  else
    match l with
    | [] => none
    | c :: t => if c = '\n' then none else r3Scan (c :: acc) t

/-- Full name-regex match (`^(.*?)(?:(?: \(.+\))|(?: <.+>)){0,2}$`). -/
def r3Match (l : List Char) : Option (List Char) := r3Scan [] l

/-! ### transformAuthors itself -/

/-- The `name` the source computes: the string itself for a string
author, the `name` property for an object author (`none` models an
absent property, on which `.match` would throw). -/
def authorName : JsAuthor → Option String
  | .str s => some s
  | .obj n _ _ _ => n

/-- The `email` property of the raw author (a plain string has none). -/
def authorEmailAttr : JsAuthor → Option String
  | .str _ => none
  | .obj _ e _ _ => e

/-- The `url` property of the raw author. -/
def authorUrlAttr : JsAuthor → Option String
  | .str _ => none
  | .obj _ _ u _ => u

/-- The `homepage` property of the raw author. -/
def authorHomepageAttr : JsAuthor → Option String
  | .str _ => none
  | .obj _ _ _ h => h

/-- `name.match(re)[1]` for one of the scans above: throws (models a
JavaScript TypeError) when `name` is `undefined` or when the match
returns `null`. -/
def matchGroupString (f : List Char → Option (List Char)) (n : Option String) :
    Except Unit String :=
  match n with
  | none => .error ()
  | some s =>
    match f s.data with
    | none => .error ()
    | some c => .ok (String.mk c)

/-- Line 250 of the source:
`author.email || name.match(emailRegex)[1].slice(2).slice(0, -1)`
(the slices strip the ` <` and `>` around the group, which `r1Scan`
already omits). -/
def computeEmail (a : JsAuthor) : Except Unit String :=
  if jsTruthyStr (authorEmailAttr a) then .ok ((authorEmailAttr a).getD "")
  else matchGroupString r1Scan (authorName a)

/-- Line 251 of the source:
`author.url || author.homepage || name.match(urlRegex)[1].slice(2).slice(0, -1)`. -/
def computeUrl (a : JsAuthor) : Except Unit String :=
  if jsTruthyStr (authorUrlAttr a) then .ok ((authorUrlAttr a).getD "")
  else if jsTruthyStr (authorHomepageAttr a) then .ok ((authorHomepageAttr a).getD "")
  else matchGroupString r2Scan (authorName a)

/-- Line 252 of the source: `name = name.match(nameRegex)[1]` (always
evaluated, on the original name value). -/
def computeName (a : JsAuthor) : Except Unit String :=
  matchGroupString r3Match (authorName a)

/-- The body of the `.map` callback in transformAuthors: computes
email, url and name in source order (the first thrown TypeError
propagates), then builds the author object and deletes falsy fields. -/
def cleanAuthor (a : JsAuthor) : Except Unit AuthorObj :=
  match computeEmail a with
  | .error e => .error e
  | .ok email =>
    match computeUrl a with
    | .error e => .error e
    | .ok url =>
      match computeName a with
      | .error e => .error e
      | .ok name => .ok ⟨cleanField name, cleanField email, cleanField url⟩

/-- JavaScript truthiness of a raw author value: objects are always
truthy, strings are truthy iff nonempty. -/
def truthyAuthor : JsAuthor → Bool
  | .str s => !s.isEmpty
  | .obj _ _ _ _ => true

/-- The `authors.filter(x => !!x)` step: `none` entries model
`undefined` elements and are dropped, as are falsy (empty-string)
authors. -/
def keptAuthors : List (Option JsAuthor) → List JsAuthor
  | [] => []
  | none :: t => keptAuthors t
  | some a :: t => if truthyAuthor a then a :: keptAuthors t else keptAuthors t

/-- `Array.prototype.map` over a callback that can throw: elements are
processed left to right and the first exception aborts the whole map. -/
def mapExcept (f : α → Except Unit β) : List α → Except Unit (List β)
  | [] => .ok []
  | x :: t =>
    match f x with
    | .error e => .error e
    | .ok y =>
      match mapExcept f t with
      | .error e => .error e
      | .ok ys => .ok (y :: ys)

/-- transformAuthors (src/index.js lines 247-266): filter falsy
entries, then normalize each remaining author. -/
def transformAuthors (authors : List (Option JsAuthor)) : Except Unit (List AuthorObj) :=
  mapExcept cleanAuthor (keptAuthors authors)

/-- Equality of exception-carrying results is decidable (used to
evaluate the embedding on concrete inputs). -/
instance {ε α : Type} [DecidableEq ε] [DecidableEq α] : DecidableEq (Except ε α) := fun a b =>
  match a, b with
  | .ok x, .ok y =>
    if h : x = y then isTrue (congrArg Except.ok h)
    else isFalse fun hc => h (Except.ok.inj hc)
  | .error x, .error y =>
    if h : x = y then isTrue (congrArg Except.error h)
    else isFalse fun hc => h (Except.error.inj hc)
  | .ok _, .error _ => isFalse fun hc => Except.noConfusion hc
  | .error _, .ok _ => isFalse fun hc => Except.noConfusion hc

/-! ## File map model (src/index.js lines 83-111) -/

/-- A fileMapItem: a base path plus the glob patterns searched from it
(the source documents `files` as the list of glob patterns). -/
structure FileMapEntry where
  basePath : String
  files : List String
deriving DecidableEq

/-- Models Node `path.join(a, b)` for the cases the program exercises:
joining with an empty segment leaves the path unchanged, otherwise the
segments are joined with a separator. -/
def joinPath (a b : String) : String :=
  if b.isEmpty then a else a ++ "/" ++ b

/-- allFileMapFiles (src/index.js lines 100-111). The glob collaborator
`g` takes a pattern and a working directory and either returns the
matched file paths (relative to that directory) or throws; each
pattern runs inside its own try/catch, a throwing pattern contributing
nothing. The imperative `files.push(...)` accumulation is modelled with
folds. -/
def allFileMapFiles (g : String → String → Except Unit (List String))
    (path : String) (fileMap : List FileMapEntry) : List String :=
  fileMap.foldl
    (fun files m =>
      m.files.foldl
        (fun fs file =>
          match g file (joinPath path m.basePath) with
          | .ok l => fs ++ l
          | .error _ => fs)
        files)
    []

/-- The matches contributed by one pattern of one entry (empty when the
glob call throws). -/
def patternMatches (g : String → String → Except Unit (List String))
    (path : String) (m : FileMapEntry) (file : String) : List String :=
  match g file (joinPath path m.basePath) with
  | .ok l => l
  | .error _ => []

/-- The matches contributed by one fileMap entry, in pattern order. -/
def entryMatches (g : String → String → Except Unit (List String))
    (path : String) (m : FileMapEntry) : List String :=
  m.files.flatMap (patternMatches g path m)

/-! ## File-Map Builder (src/index.js exploreAndGlob, lines 166-214) -/

/-- Line 207 of the source:
`resolve(basePath) === resolve(__dirname) ? '' : basePath`.
`res` models Node `path.resolve` and `dir` the program directory. -/
def normalizeBasePath (res : String → String) (dir : String) (bp : String) : String :=
  if res bp = res dir then "" else bp

/-- Which prompt the builder loops of exploreAndGlob are sitting at:
the outer base-path prompt, or the inner pattern prompt with the
current base path and the patterns accumulated for it. -/
inductive BuilderMode where
  | askBase
  | askPattern (basePath : String) (patterns : List String)
deriving DecidableEq

/-- The builder state: the current prompt plus the fileMap accumulated
so far. -/
structure BuilderState where
  mode : BuilderMode
  fileMap : List FileMapEntry
deriving DecidableEq

/-- One user response consumed by the nested while-loops of
exploreAndGlob: either the loop continues in a new state, or the outer
loop breaks and returns the accumulated fileMap. An empty response
terminates a loop only when the corresponding minimum (one entry
overall / one pattern for the current base path) is met; otherwise an
error message is printed and the same prompt repeats. -/
def builderStep (res : String → String) (dir : String)
    (s : BuilderState) (inp : String) : BuilderState ⊕ List FileMapEntry :=
  match s.mode with
  | .askBase =>
    if inp = "" then
      if s.fileMap = [] then .inl s else .inr s.fileMap
    else .inl ⟨.askPattern inp [], s.fileMap⟩
  | .askPattern bp pats =>
    if inp = "" then
      if pats = [] then .inl s
      else .inl ⟨.askBase, s.fileMap ++ [⟨normalizeBasePath res dir bp, pats⟩]⟩
    else .inl ⟨.askPattern bp (pats ++ [inp]), s.fileMap⟩

/-- Runs the builder over a finite list of user responses; `none` means
the responses ran out before the user terminated the outer loop. -/
def runBuilder (res : String → String) (dir : String) :
    BuilderState → List String → Option (List FileMapEntry)
  | _, [] => none
  | s, i :: rest =>
    match builderStep res dir s i with
    | .inl s2 => runBuilder res dir s2 rest
    | .inr fm => some fm

/-- The fileMap-building portion of exploreAndGlob, started at the
base-path prompt with an empty fileMap (the preceding explore and
globExplore loops have no effect on the returned fileMap). -/
def exploreAndGlob (res : String → String) (dir : String)
    (inputs : List String) : Option (List FileMapEntry) :=
  runBuilder res dir ⟨.askBase, []⟩ inputs

/-! ## Glob-test mode of the Interactive Explorer
(src/index.js globExplore, lines 66-81) -/

/-- JavaScript `String.prototype.split(' ')` over the character list:
every space is a separator and empty tokens are preserved. -/
def splitOnSpace : List Char → List (List Char)
  | [] => [[]]
  | c :: t =>
    if c = ' ' then [] :: splitOnSpace t
    else
      match splitOnSpace t with
      | [] => [[c]]
      | h :: r => (c :: h) :: r

/-- `globInput.split(' ', 2)`: JavaScript splits on every separator and
keeps only the first `2` tokens. -/
def jsSplitTwo (s : String) : List String :=
  ((splitOnSpace s.data).take 2).map String.mk

/-- Lines 71-72 of the source: destructure the input line into
`basePath` and `globPattern` and run the glob collaborator from
`join(path, basePath)`. With fewer than two tokens the destructured
`globPattern` is `undefined` and the glob call throws (modelled as an
error, which globExplore catches and reports). -/
def globExploreStep (g : String → String → Except Unit (List String))
    (path : String) (globInput : String) : Except Unit (List String) :=
  match jsSplitTwo globInput with
  | [basePath, globPattern] => g globPattern (joinPath path basePath)
  | _ => .error ()

/-! ## Registry documents and the npm variant of the Metadata Assembler
(src/index.js npm, lines 274-339) -/

/-- The `repository` shape stored in the output record (`{type, url}`);
each key may be absent. -/
structure RepoObj where
  type : Option String := none
  url : Option String := none
deriving DecidableEq

/-- The value of an `authors` key in a registry document: either an
array (possibly holding `undefined` entries) or a non-array value that
`Array.isArray` rejects and the source wraps as a one-element array. -/
inductive AuthorsVal where
  | arr (l : List (Option JsAuthor))
  | nonArr (a : JsAuthor)
deriving DecidableEq

/-- The metadata fields the program reads from a registry document
(package-level or version-level). `none` models an absent key, so that
the object-spread merge can distinguish presence from emptiness. -/
structure DocFields where
  description : Option String := none
  keywords : Option (List String) := none
  license : Option String := none
  homepage : Option String := none
  repository : Option RepoObj := none
  author : Option JsAuthor := none
  authors : Option AuthorsVal := none
deriving DecidableEq

/-- One version document inside the package document's `versions` map.
The program never reads a version-level `error` key; it is modelled so
that its (non-)effect can be stated. -/
structure NpmVersionDoc where
  fields : DocFields := {}
  dist : Option String := none
  error : Option String := none
deriving DecidableEq

/-- The package-level document returned by the single registry fetch
(`https://registry.npmjs.com/<name>`). `distTagsLatest` is the
document's `dist-tags.latest` value and `versions` its version map. -/
structure NpmPkgDoc where
  error : Option String := none
  name : String := ""
  distTagsLatest : String := ""
  versions : List (String × NpmVersionDoc) := []
  fields : DocFields := {}
deriving DecidableEq

/-- One field of the object spread `{...jsonVersionData, ...jsonData}`
(lines 296-299): a key present on the later-spread package document
wins; the version document's key is used only when the package document
lacks it. -/
def mergeField (pkgF verF : Option α) : Option α :=
  match pkgF with
  | some v => some v
  | none => verF

/-- The merged `jsonFullData` document of lines 296-299, restricted to
the fields the program reads. -/
def mergeDocs (ver pkg : DocFields) : DocFields :=
  { description := mergeField pkg.description ver.description
    keywords := mergeField pkg.keywords ver.keywords
    license := mergeField pkg.license ver.license
    homepage := mergeField pkg.homepage ver.homepage
    repository := mergeField pkg.repository ver.repository
    author := mergeField pkg.author ver.author
    authors := mergeField pkg.authors ver.authors }

/-- Line 309: `Array.isArray(x) ? x : [x]` applied to the merged
`authors` value (an absent value is not an array and becomes
`[undefined]`). -/
def spreadAuthors : Option AuthorsVal → List (Option JsAuthor)
  | some (.arr l) => l
  | some (.nonArr a) => [some a]
  | none => [none]

/-- The autoupdate block of the output record. -/
structure Autoupdate where
  source : String
  target : String
  fileMap : List FileMapEntry
deriving DecidableEq

/-- The assembled cdnjsData record (npm variant field order:
name, description, keywords, license, homepage, repository, authors,
autoupdate, then filename only when chosen). -/
structure CdnjsData where
  name : String
  description : String
  keywords : List String
  license : String
  homepage : String
  repository : RepoObj
  authors : List AuthorObj
  autoupdate : Autoupdate
  filename : Option String := none
deriving DecidableEq

/-- The npm variant of the Metadata Assembler (src/index.js lines
274-339), with the interactive and filesystem effects abstracted:
`pkg` is the document the single registry fetch returned, `fileMap` the
result of the exploreAndGlob session and `defaultFile` the response to
the default-file prompt. `Except.error` models an uncaught JavaScript
exception, `.ok none` the early `return` after a registry error and
`.ok (some _)` a produced record. The version document is read from
`pkg.versions[pkg.distTagsLatest]` (line 290); when it is absent, line
314 (`jsonVersionData.dist.tarball`) throws. -/
def npm (cdnjsName : String) (pkg : NpmPkgDoc)
    (fileMap : List FileMapEntry) (defaultFile : String) :
    Except Unit (Option CdnjsData) :=
  if jsTruthyStr pkg.error then .ok none
  else
    let verDocOpt := pkg.versions.lookup pkg.distTagsLatest
    let verFields := match verDocOpt with
      | some v => v.fields
      | none => {}
    let full := mergeDocs verFields pkg.fields
    match transformAuthors (full.author :: spreadAuthors full.authors) with
    | .error e => .error e
    | .ok authors =>
      match verDocOpt with
      | none => .error ()
      | some _ =>
        .ok (some
          { name := cdnjsName
            description := jsOrStr full.description ""
            keywords := jsOrList full.keywords []
            license := jsOrStr full.license ""
            homepage := jsOrStr full.homepage ""
            repository := full.repository.getD {}
            authors := authors
            autoupdate := { source := "npm", target := pkg.name, fileMap := fileMap }
            filename := if defaultFile.isEmpty then none else some defaultFile })

/-! ## JSON serialization (`JSON.stringify(data, null, 2)`) and the
Publisher (src/index.js createPR lines 120-137 and main lines 492-504) -/

/-- A run of `n` spaces. -/
def spaces (n : Nat) : String := String.mk (List.replicate n ' ')

/-- One hexadecimal digit, lower case. -/
def hexDigit (n : Nat) : String :=
  String.mk [("0123456789abcdef".data).getD n '0']

/-- JSON string escaping as performed by `JSON.stringify`: quote,
backslash and control characters are escaped, everything else is kept. -/
def escapeJsonChar (c : Char) : String :=
  if c = '\x22' then "\\\""
  else if c = '\\' then "\\\\"
  else if c = '\n' then "\\n"
  else if c = '\r' then "\\r"
  else if c = '\t' then "\\t"
  else if c = '\x08' then "\\b"
  else if c = '\x0c' then "\\f"
  else if c.toNat < 32 then "\\u00" ++ hexDigit (c.toNat / 16) ++ hexDigit (c.toNat % 16)
  else String.mk [c]

/-- Escape a whole string for JSON. -/
def escapeJson (s : String) : String := String.join (s.data.map escapeJsonChar)

/-- A JSON string literal. -/
def jsonQuote (s : String) : String := "\x22" ++ escapeJson s ++ "\x22"

/-- Render a JSON array with two-space indentation, `ind` being the
indentation depth of the line holding the closing bracket; `items` are
already rendered. `JSON.stringify` prints `[]` for an empty array. -/
def jsonArr (ind : Nat) (items : List String) : String :=
  if items.isEmpty then "[]"
  else
    "[\n" ++ String.intercalate ",\n" (items.map fun it => spaces (ind + 2) ++ it)
      ++ "\n" ++ spaces ind ++ "]"

/-- Render a JSON object with two-space indentation (values already
rendered); `JSON.stringify` prints `\x7b\x7d` for an empty object. -/
def jsonObj (ind : Nat) (fields : List (String × String)) : String :=
  if fields.isEmpty then "\x7b\x7d"
  else
    "\x7b\n"
      ++ String.intercalate ",\n"
        (fields.map fun f => spaces (ind + 2) ++ jsonQuote f.1 ++ ": " ++ f.2)
      ++ "\n" ++ spaces ind ++ "\x7d"

/-- A key/value pair present only when the value is. -/
def optField (k : String) (v : Option String) : List (String × String) :=
  match v with
  | some s => [(k, jsonQuote s)]
  | none => []

/-- Serialize the `repository` object (keys in insertion order, absent
keys omitted). -/
def renderRepo (ind : Nat) (r : RepoObj) : String :=
  jsonObj ind (optField "type" r.type ++ optField "url" r.url)

/-- Serialize one cleaned author object. -/
def renderAuthor (ind : Nat) (a : AuthorObj) : String :=
  jsonObj ind (optField "name" a.name ++ optField "email" a.email ++ optField "url" a.url)

/-- Serialize one fileMap entry (`{basePath, files}`). -/
def renderEntry (ind : Nat) (e : FileMapEntry) : String :=
  jsonObj ind
    [("basePath", jsonQuote e.basePath),
     ("files", jsonArr (ind + 2) (e.files.map jsonQuote))]

/-- Serialize the autoupdate block (`{source, target, fileMap}`). -/
def renderAutoupdate (ind : Nat) (u : Autoupdate) : String :=
  jsonObj ind
    [("source", jsonQuote u.source),
     ("target", jsonQuote u.target),
     ("fileMap", jsonArr (ind + 2) (u.fileMap.map (renderEntry (ind + 4))))]

/-- `JSON.stringify(cdnjsData, null, 2)`: the record serialized with
two-space indentation, keys in the order the npm variant assigns them,
`filename` present only when it was chosen. -/
def stringifyCdnjs (d : CdnjsData) : String :=
  jsonObj 0
    ([("name", jsonQuote d.name),
      ("description", jsonQuote d.description),
      ("keywords", jsonArr 2 (d.keywords.map jsonQuote)),
      ("license", jsonQuote d.license),
      ("homepage", jsonQuote d.homepage),
      ("repository", renderRepo 2 d.repository),
      ("authors", jsonArr 2 (d.authors.map (renderAuthor 4))),
      ("autoupdate", renderAutoupdate 2 d.autoupdate)]
      ++ (match d.filename with
          | some f => [("filename", jsonQuote f)]
          | none => []))

/-- The target path of the file createPR submits (line 124):
`packages/<first name character, lowercased>/<name>.json`. -/
def createPRFilePath (data : CdnjsData) : String :=
  "packages/" ++ (data.name.take 1).toLower ++ "/" ++ data.name ++ ".json"

/-- The content of the file createPR submits (line 124):
the serialized record with a trailing newline appended. -/
def createPRFileContent (data : CdnjsData) : String :=
  stringifyCdnjs data ++ "\n"

/-- The target path printed by the fallback branch of main (line 502);
textually the same expression as in createPR. -/
def mainFallbackPath (cdnjsData : CdnjsData) : String :=
  "packages/" ++ (cdnjsData.name.take 1).toLower ++ "/" ++ cdnjsData.name ++ ".json"

/-- The serialized record printed by the fallback branch of main
(line 503). -/
def mainFallbackBody (cdnjsData : CdnjsData) : String :=
  stringifyCdnjs cdnjsData

/-- The try/catch around createPR in main (lines 493-504): on success
the PR URL is announced; on any failure main falls back to printing the
target path and the serialized record. Only the record-bearing console
lines are modelled. -/
def mainPublish (cdnjsData : CdnjsData) (prResult : Except Unit String) : List String :=
  match prResult with
  | .ok url => ["Created automatic PR: " ++ url]
  | .error _ =>
    ["Failed to create automatic PR",
     "Create new file on cdnjs/packages: " ++ mainFallbackPath cdnjsData,
     mainFallbackBody cdnjsData]

/-! ## Helper lemmas -/

/-- A loop break (`Sum.inr`) of the builder returns exactly the
accumulated fileMap, and only when it is non-empty. -/
lemma builderStep_inr_eq (res : String → String) (dir : String)
    (s : BuilderState) (inp : String) (fm : List FileMapEntry)
    (h : builderStep res dir s inp = Sum.inr fm) : fm = s.fileMap ∧ fm ≠ [] := by
  rcases s with ⟨mode, acc⟩
  cases mode <;> simp only [builderStep] at h
  · split at h
    · split at h
      · cases h
      · rcases h with ⟨⟩
        rename_i hacc
        exact ⟨rfl, hacc⟩
    · cases h
  · split at h
    · split at h
      · cases h
      · cases h
    · cases h

/-- A continuing builder step preserves the invariant that every
accumulated entry has a non-empty pattern list. -/
lemma builderStep_inl_inv (res : String → String) (dir : String)
    (s s2 : BuilderState) (inp : String)
    (hinv : ∀ e ∈ s.fileMap, e.files ≠ [])
    (h : builderStep res dir s inp = Sum.inl s2) : ∀ e ∈ s2.fileMap, e.files ≠ [] := by
  rcases s with ⟨mode, acc⟩
  cases mode <;> simp only [builderStep] at h
  · split at h
    · split at h
      · cases h; exact hinv
      · cases h
    · cases h; exact hinv
  · split at h
    · split at h
      · cases h; exact hinv
      · cases h
        intro e he
        rcases List.mem_append.mp he with h1 | h1
        · exact hinv e h1
        · rcases List.mem_singleton.mp h1 with rfl
          rename_i _ hpats
          exact hpats
    · cases h; exact hinv

/-- Completing the builder from a state whose entries all have
non-empty pattern lists yields a non-empty fileMap whose entries all
have non-empty pattern lists. -/
lemma runBuilder_inv (res : String → String) (dir : String) :
    ∀ (inputs : List String) (s : BuilderState) (fm : List FileMapEntry),
      (∀ e ∈ s.fileMap, e.files ≠ []) →
      runBuilder res dir s inputs = some fm →
      fm ≠ [] ∧ ∀ e ∈ fm, e.files ≠ []
  | [], _, _, _, h => by cases h
  | i :: rest, s, fm, hinv, h => by
    rw [runBuilder] at h
    cases hstep : builderStep res dir s i with
    | inl s2 =>
      rw [hstep] at h
      exact runBuilder_inv res dir rest s2 fm (builderStep_inl_inv res dir s s2 i hinv hstep) h
    | inr fm2 =>
      rw [hstep] at h
      rcases builderStep_inr_eq res dir s i fm2 hstep with ⟨heq, hne⟩
      subst heq
      cases h
      exact ⟨hne, hinv⟩

/-- Claim C4 theorem. -/
theorem exploreAndGlob_completion_invariant :
    (∀ (res : String → String) (dir : String) (inputs : List String)
       (fm : List FileMapEntry),
       exploreAndGlob res dir inputs = some fm →
       fm ≠ [] ∧ ∀ e ∈ fm, e.files ≠ [])
    ∧ (∀ res dir, builderStep res dir ⟨.askBase, []⟩ "" = Sum.inl ⟨.askBase, []⟩)
    ∧ (∀ res dir fmAcc, fmAcc ≠ [] →
        builderStep res dir ⟨.askBase, fmAcc⟩ "" = Sum.inr fmAcc)
    ∧ (∀ res dir bp fmAcc,
        builderStep res dir ⟨.askPattern bp [], fmAcc⟩ ""
          = Sum.inl ⟨.askPattern bp [], fmAcc⟩)
    ∧ (∀ res dir bp pats fmAcc, pats ≠ [] →
        builderStep res dir ⟨.askPattern bp pats, fmAcc⟩ ""
          = Sum.inl ⟨.askBase, fmAcc ++ [⟨normalizeBasePath res dir bp, pats⟩]⟩) := by
  refine ⟨?_, ?_, ?_, ?_, ?_⟩
  · intro res dir inputs fm h
    exact runBuilder_inv res dir inputs ⟨.askBase, []⟩ fm (by simp) h
  · intro res dir; rfl
  · intro res dir fmAcc hne; simp [builderStep, hne]
  · intro res dir bp fmAcc; rfl
  · intro res dir bp pats fmAcc hne; simp [builderStep, hne]

/-- Claim C4 witness: a concrete completed session (one base path with
one pattern, then two empty lines) and the invariant at its result. -/
theorem exploreAndGlob_completion_invariant_witness :
    exploreAndGlob id "/cli" ["dist", "*.js", "", ""] = some [⟨"dist", ["*.js"]⟩]
    ∧ [FileMapEntry.mk "dist" ["*.js"]] ≠ [] :=
  ⟨by decide,
   (exploreAndGlob_completion_invariant.1 id "/cli" ["dist", "*.js", "", ""]
      [⟨"dist", ["*.js"]⟩] (by decide)).1⟩

/-- Claim C8 theorem: an entry pushed by the builder stores the empty
string as basePath exactly when the entered (necessarily non-empty)
base path resolves to the program directory, and stores the entered
path unchanged otherwise. -/
theorem normalizeBasePath_self_reference :
    ∀ (res : String → String) (dir bp : String) (pats : List String)
      (fmAcc : List FileMapEntry), bp ≠ "" → pats ≠ [] →
      ((normalizeBasePath res dir bp = "" ↔ res bp = res dir)
       ∧ (res bp ≠ res dir → normalizeBasePath res dir bp = bp)
       ∧ builderStep res dir ⟨.askPattern bp pats, fmAcc⟩ ""
           = Sum.inl ⟨.askBase, fmAcc ++ [⟨normalizeBasePath res dir bp, pats⟩]⟩) := by
  intro res dir bp pats fmAcc hbp hpats
  refine ⟨?_, ?_, ?_⟩
  · unfold normalizeBasePath
    split
    · rename_i heq
      exact ⟨fun _ => heq, fun _ => rfl⟩
    · rename_i hne
      exact ⟨fun h => absurd h hbp, fun h => absurd h hne⟩
  · intro hne
    unfold normalizeBasePath
    simp [hne]
  · simp [builderStep, hpats]

/-- Claim C8 witness: with resolution modelled as the identity, a base
path equal to the program directory is stored as the empty string and a
different one is stored unchanged. -/
theorem normalizeBasePath_self_reference_witness :
    normalizeBasePath id "/cli" "/cli" = "" ∧ normalizeBasePath id "/cli" "dist" = "dist" :=
  ⟨(normalizeBasePath_self_reference id "/cli" "/cli" ["*"] [] (by decide) (by decide)).1.mpr
     rfl,
   (normalizeBasePath_self_reference id "/cli" "dist" ["*"] [] (by decide) (by decide)).2.1
     (by decide)⟩

/-- splitOnSpace never returns an empty token list. -/
lemma splitOnSpace_ne_nil : ∀ l : List Char, splitOnSpace l ≠ [] := by
  intro l
  cases l with
  | nil => simp [splitOnSpace]
  | cons c t =>
    unfold splitOnSpace
    split
    · simp
    · cases h : splitOnSpace t <;> simp

/-- A space-free list is a single token. -/
lemma splitOnSpace_no_space : ∀ b : List Char, ' ' ∉ b → splitOnSpace b = [b] := by
  intro b
  induction b with
  | nil => intro _; rfl
  | cons c t ih =>
    intro hb
    have hc : ¬ c = ' ' := fun h => hb (h ▸ List.mem_cons_self c t)
    have ht : ' ' ∉ t := fun h => hb (List.mem_cons_of_mem c h)
    unfold splitOnSpace
    rw [if_neg hc, ih ht]

/-- Splitting a list whose space-free prefix is followed by a space
peels off that prefix as the first token. -/
lemma splitOnSpace_append : ∀ (a r : List Char), ' ' ∉ a →
    splitOnSpace (a ++ ' ' :: r) = a :: splitOnSpace r := by
  intro a
  induction a with
  | nil => intro r _; simp [splitOnSpace]
  | cons c t ih =>
    intro r ha
    have hc : ¬ c = ' ' := fun h => ha (h ▸ List.mem_cons_self c t)
    have ht : ' ' ∉ t := fun h => ha (List.mem_cons_of_mem c h)
    show splitOnSpace (c :: (t ++ ' ' :: r)) = (c :: t) :: splitOnSpace r
    unfold splitOnSpace
    rw [if_neg hc, ih r ht]
    cases r <;> rfl

/-- Claim C10 theorem: `split(' ', 2)` keeps only the first two
space-delimited tokens, so glob-test input with more than one space is
tested exactly as if everything after the second token were absent, and
the pattern passed to the glob collaborator is the second token only. -/
theorem globExplore_split_discards_extra :
    ∀ (g : String → String → Except Unit (List String)) (path : String)
      (a b junk : List Char), ' ' ∉ a → ' ' ∉ b →
      (jsSplitTwo (String.mk (a ++ ' ' :: (b ++ ' ' :: junk)))
         = [String.mk a, String.mk b]
       ∧ globExploreStep g path (String.mk (a ++ ' ' :: (b ++ ' ' :: junk)))
           = globExploreStep g path (String.mk (a ++ ' ' :: b))
       ∧ globExploreStep g path (String.mk (a ++ ' ' :: (b ++ ' ' :: junk)))
           = g (String.mk b) (joinPath path (String.mk a))) := by
  intro g path a b junk ha hb
  have h1 : jsSplitTwo (String.mk (a ++ ' ' :: (b ++ ' ' :: junk)))
      = [String.mk a, String.mk b] := by
    show (((splitOnSpace (a ++ ' ' :: (b ++ ' ' :: junk))).take 2).map String.mk)
      = [String.mk a, String.mk b]
    rw [splitOnSpace_append a _ ha, splitOnSpace_append b junk hb]
    rfl
  have h2 : jsSplitTwo (String.mk (a ++ ' ' :: b)) = [String.mk a, String.mk b] := by
    show (((splitOnSpace (a ++ ' ' :: b)).take 2).map String.mk)
      = [String.mk a, String.mk b]
    rw [splitOnSpace_append a b ha, splitOnSpace_no_space b hb]
    rfl
  refine ⟨h1, ?_, ?_⟩
  · unfold globExploreStep
    rw [h1, h2]
  · unfold globExploreStep
    rw [h1]

/-- Claim C10 witness: the concrete glob-test line
`dist *.js min` is tested as base path `dist` with pattern `*.js`; the
trailing `min` is discarded. -/
theorem globExplore_split_discards_extra_witness :
    jsSplitTwo (String.mk ("dist".data ++ ' ' :: ("*.js".data ++ ' ' :: "min".data)))
      = [String.mk "dist".data, String.mk "*.js".data] :=
  (globExplore_split_discards_extra (fun _ _ => Except.ok []) "/p"
    "dist".data "*.js".data "min".data (by decide) (by decide)).1

/-- The cleanup never leaves a present-but-empty field. -/
lemma cleanField_ne_some_empty (s : String) : cleanField s ≠ some "" := by
  unfold cleanField
  split
  · simp
  · rename_i hne
    intro h
    rw [Option.some.injEq] at h
    subst h
    exact hne rfl

/-- Every author object cleanAuthor produces has all its present
fields non-empty. -/
lemma cleanAuthor_ok_fields (a : JsAuthor) (r : AuthorObj)
    (h : cleanAuthor a = .ok r) :
    r.name ≠ some "" ∧ r.email ≠ some "" ∧ r.url ≠ some "" := by
  unfold cleanAuthor at h
  split at h
  · cases h
  · split at h
    · cases h
    · split at h
      · cases h
      · rw [Except.ok.injEq] at h
        subst h
        exact ⟨cleanField_ne_some_empty _, cleanField_ne_some_empty _,
          cleanField_ne_some_empty _⟩

/-- Every element of a successful mapExcept result comes from applying
the callback to some input element. -/
lemma mapExcept_ok_mem (f : α → Except Unit β) :
    ∀ (l : List α) (out : List β), mapExcept f l = .ok out →
      ∀ b ∈ out, ∃ a ∈ l, f a = .ok b := by
  intro l
  induction l with
  | nil =>
    intro out h b hb
    rw [mapExcept, Except.ok.injEq] at h
    subst h
    cases hb
  | cons x t ih =>
    intro out h b hb
    rw [mapExcept] at h
    split at h
    · cases h
    · rename_i y hy
      split at h
      · cases h
      · rename_i ys hys
        rw [Except.ok.injEq] at h
        subst h
        rcases List.mem_cons.mp hb with rfl | hmem
        · exact ⟨x, List.mem_cons_self x t, hy⟩
        · rcases ih ys hys b hmem with ⟨a, hal, hfa⟩
          exact ⟨a, List.mem_cons_of_mem x hal, hfa⟩

/-- If any input element makes the callback throw, the whole map
throws. -/
lemma mapExcept_error_of_mem (f : α → Except Unit β) :
    ∀ (l : List α) (a : α), a ∈ l → f a = .error () → mapExcept f l = .error () := by
  intro l
  induction l with
  | nil => intro a ha; cases ha
  | cons x t ih =>
    intro a ha hfa
    rcases List.mem_cons.mp ha with rfl | hmem
    · rw [mapExcept, hfa]
    · rw [mapExcept]
      cases hx : f x with
      | error e => cases e; rfl
      | ok y => rw [ih a hmem hfa]

/-- A truthy author present in the input survives the filter. -/
lemma mem_keptAuthors (l : List (Option JsAuthor)) (a : JsAuthor)
    (hmem : some a ∈ l) (ht : truthyAuthor a = true) : a ∈ keptAuthors l := by
  induction l with
  | nil => cases hmem
  | cons o t ih =>
    rcases List.mem_cons.mp hmem with heq | hmem2
    · subst heq
      rw [keptAuthors, if_pos ht]
      exact List.mem_cons_self a _
    · cases o with
      | none => rw [keptAuthors]; exact ih hmem2
      | some b =>
        rw [keptAuthors]
        split
        · exact List.mem_cons_of_mem b (ih hmem2)
        · exact ih hmem2

/-- The `filter(x => !!x)` step removes an undefined entry wherever it
sits in the input list. -/
lemma keptAuthors_drop_none :
    ∀ (pre post : List (Option JsAuthor)),
      keptAuthors (pre ++ none :: post) = keptAuthors (pre ++ post) := by
  intro pre
  induction pre with
  | nil => intro post; rfl
  | cons o t ih =>
    intro post
    cases o with
    | none =>
      show keptAuthors (none :: (t ++ none :: post)) = keptAuthors (none :: (t ++ post))
      rw [keptAuthors, keptAuthors]
      exact ih post
    | some a =>
      show keptAuthors (some a :: (t ++ none :: post))
        = keptAuthors (some a :: (t ++ post))
      rw [keptAuthors, keptAuthors, ih post]

/-- Claim C5 theorem: the two documented concrete normalizations, the
dropping of every undefined entry (at any position of the input list),
and the guarantee that no produced author object stores an empty
field. -/
theorem transformAuthors_spec :
    transformAuthors [some (.str "Jane Doe <jane@x.com> (https://x.com)")]
      = .ok [⟨some "Jane Doe", some "jane@x.com", some "https://x.com"⟩]
    ∧ transformAuthors [some (.obj (some "Jane") none none none)]
        = .ok [⟨some "Jane", none, none⟩]
    ∧ (∀ pre post : List (Option JsAuthor),
        transformAuthors (pre ++ none :: post) = transformAuthors (pre ++ post))
    ∧ (∀ (l : List (Option JsAuthor)) (out : List AuthorObj),
        transformAuthors l = .ok out →
        ∀ a ∈ out, a.name ≠ some "" ∧ a.email ≠ some "" ∧ a.url ≠ some "") := by
  refine ⟨by decide, by decide,
    fun pre post => congrArg (mapExcept cleanAuthor) (keptAuthors_drop_none pre post), ?_⟩
  intro l out h a ha
  rcases mapExcept_ok_mem cleanAuthor (keptAuthors l) out h a ha with ⟨x, _, hx⟩
  exact cleanAuthor_ok_fields x a hx

/-- Claim C5 witness: an undefined entry sitting after an object author
(the `[author, ...authors]` shape of line 309 when `authors` is absent)
is dropped, and the produced object stores no empty name. -/
theorem transformAuthors_spec_witness :
    transformAuthors [some (.obj (some "Jane") none none none), none]
      = .ok [⟨some "Jane", none, none⟩]
    ∧ (AuthorObj.mk (some "Jane") none none).name ≠ some "" := by
  refine ⟨?_, ?_⟩
  · exact (transformAuthors_spec.2.2.1 [some (.obj (some "Jane") none none none)]
      []).trans transformAuthors_spec.2.1
  · exact (transformAuthors_spec.2.2.2 [some (.obj (some "Jane") none none none)]
      [⟨some "Jane", none, none⟩] transformAuthors_spec.2.1
      ⟨some "Jane", none, none⟩ (List.mem_singleton.mpr rfl)).1

/-- An object author without a name always makes cleanAuthor throw:
even when email and url short-circuit their own regexes, line 252
unconditionally recomputes the name with `name.match`, which throws on
undefined. -/
lemma cleanAuthor_obj_no_name (e u h : Option String) :
    cleanAuthor (.obj none e u h) = .error () := by
  unfold cleanAuthor computeEmail computeUrl computeName
  split_ifs <;> rfl

/-- Claim C9 theorem: any input list containing a (necessarily truthy)
object author whose name field is undefined makes transformAuthors
throw instead of returning a normalized list, whatever email and url
the object supplies. -/
theorem transformAuthors_undefined_name_throws :
    ∀ (l : List (Option JsAuthor)) (e u h : Option String),
      some (JsAuthor.obj none e u h) ∈ l → transformAuthors l = .error () := by
  intro l e u h hmem
  exact mapExcept_error_of_mem cleanAuthor (keptAuthors l) (.obj none e u h)
    (mem_keptAuthors l _ hmem rfl) (cleanAuthor_obj_no_name e u h)

/-- Claim C9 witness: a nameless object author that does supply email
and url still makes the normalization throw. -/
theorem transformAuthors_undefined_name_throws_witness :
    transformAuthors [some (.obj none (some "jane@x.com") (some "https://x.com") none)]
      = .error () :=
  transformAuthors_undefined_name_throws _ (some "jane@x.com") (some "https://x.com") none
    (List.mem_singleton.mpr rfl)

/-- The inner pattern fold of allFileMapFiles appends, in order, the
contribution of each pattern of one entry. -/
lemma allFileMapFiles_inner (g : String → String → Except Unit (List String))
    (path : String) (m : FileMapEntry) :
    ∀ (files : List String) (acc : List String),
      files.foldl
        (fun fs file =>
          match g file (joinPath path m.basePath) with
          | .ok l => fs ++ l
          | .error _ => fs)
        acc
      = acc ++ files.flatMap (patternMatches g path m) := by
  intro files
  induction files with
  | nil => intro acc; simp
  | cons f t ih =>
    intro acc
    rw [List.foldl_cons, ih, List.flatMap_cons, ← List.append_assoc]
    have hstep :
        (match g f (joinPath path m.basePath) with
          | .ok l => acc ++ l
          | .error _ => acc)
        = acc ++ patternMatches g path m f := by
      unfold patternMatches
      cases g f (joinPath path m.basePath) <;> simp
    rw [hstep]

/-- allFileMapFiles is the ordered concatenation of every entry's
pattern matches, in declaration order. -/
lemma allFileMapFiles_flatMap (g : String → String → Except Unit (List String))
    (path : String) (fileMap : List FileMapEntry) :
    allFileMapFiles g path fileMap = fileMap.flatMap (entryMatches g path) := by
  unfold allFileMapFiles
  suffices h : ∀ (fm : List FileMapEntry) (acc : List String),
      fm.foldl
        (fun files m =>
          m.files.foldl
            (fun fs file =>
              match g file (joinPath path m.basePath) with
              | .ok l => fs ++ l
              | .error _ => fs)
            files)
        acc
      = acc ++ fm.flatMap (entryMatches g path) by
    rw [h fileMap []]
    simp
  intro fm
  induction fm with
  | nil => intro acc; simp
  | cons m t ih =>
    intro acc
    rw [List.foldl_cons, ih, allFileMapFiles_inner, List.flatMap_cons,
      List.append_assoc]
    rfl

/-- Claim C6 theorem: assuming the glob collaborator only reports
regular files under its working directory that match the queried
pattern, every path in the matcher result is a regular file under
`rootPath/basePath` of the entry that produced it and matches one of
that entry's patterns; the result is the declaration-ordered
concatenation of the per-entry, per-pattern matches; and no global
deduplication happens (a file matched by two patterns appears twice). -/
theorem allFileMapFiles_sound :
    (∀ (g : String → String → Except Unit (List String))
       (isFile : String → Prop) (matchesPat : String → String → Prop)
       (root : String) (fm : List FileMapEntry),
       (∀ pat cwd l, g pat cwd = .ok l → ∀ f ∈ l, isFile (joinPath cwd f) ∧ matchesPat pat f) →
       ∀ f ∈ allFileMapFiles g root fm, ∃ m ∈ fm, ∃ pat ∈ m.files,
         isFile (joinPath (joinPath root m.basePath) f) ∧ matchesPat pat f)
    ∧ (∀ g root fm, allFileMapFiles g root fm = fm.flatMap (entryMatches g root))
    ∧ allFileMapFiles (fun _ _ => .ok ["a.js"]) "root" [⟨"b", ["p1", "p2"]⟩]
        = ["a.js", "a.js"] := by
  refine ⟨?_, allFileMapFiles_flatMap, by decide⟩
  intro g isFile matchesPat root fm hg f hf
  rw [allFileMapFiles_flatMap] at hf
  rcases List.mem_flatMap.mp hf with ⟨m, hm, hfm⟩
  rcases List.mem_flatMap.mp hfm with ⟨pat, hpat, hfp⟩
  refine ⟨m, hm, pat, hpat, ?_⟩
  unfold patternMatches at hfp
  cases hgp : g pat (joinPath root m.basePath) with
  | ok l =>
    rw [hgp] at hfp
    exact hg pat (joinPath root m.basePath) l hgp f hfp
  | error e =>
    rw [hgp] at hfp
    cases hfp

/-- Claim C6 witness: a collaborator that reports `a.js` for every
query satisfies the premise for trivial file/match predicates, and the
duplicate occurrence of `a.js` is traced back to an entry and pattern. -/
theorem allFileMapFiles_sound_witness :
    ∃ m ∈ [FileMapEntry.mk "b" ["p1", "p2"]], ∃ pat ∈ m.files,
      True ∧ "a.js" = "a.js" :=
  allFileMapFiles_sound.1 (fun _ _ => .ok ["a.js"]) (fun _ => True)
    (fun _ f => f = "a.js") "root" [⟨"b", ["p1", "p2"]⟩]
    (by
      intro pat cwd l hl f hf
      rw [Except.ok.injEq] at hl
      subst hl
      rcases List.mem_singleton.mp hf with rfl
      exact ⟨trivial, rfl⟩)
    "a.js" (by decide)

/-- Claim C7 theorem: a pattern whose glob call throws contributes no
paths and does not abort the operation: the result over a fileMap with
the erroring pattern equals the result with that pattern removed. -/
theorem allFileMapFiles_swallows_errors :
    ∀ (g : String → String → Except Unit (List String)) (root : String)
      (pre post : List FileMapEntry) (bp : String)
      (fpre fpost : List String) (pat : String),
      g pat (joinPath root bp) = .error () →
      allFileMapFiles g root (pre ++ FileMapEntry.mk bp (fpre ++ pat :: fpost) :: post)
        = allFileMapFiles g root (pre ++ FileMapEntry.mk bp (fpre ++ fpost) :: post) := by
  intro g root pre post bp fpre fpost pat hpat
  rw [allFileMapFiles_flatMap, allFileMapFiles_flatMap,
    List.flatMap_append, List.flatMap_append, List.flatMap_cons, List.flatMap_cons]
  have hmid : entryMatches g root ⟨bp, fpre ++ pat :: fpost⟩
      = entryMatches g root ⟨bp, fpre ++ fpost⟩ := by
    unfold entryMatches
    rw [List.flatMap_append, List.flatMap_append, List.flatMap_cons]
    have hz : patternMatches g root ⟨bp, fpre ++ pat :: fpost⟩ pat = [] := by
      unfold patternMatches
      rw [hpat]
    rw [hz]
    rfl
  rw [hmid]

/-- Claim C7 witness: with a collaborator that throws on the malformed
pattern and matches `a.js` otherwise, an entry holding only the
malformed pattern contributes nothing and the other entry's matches are
unaffected. -/
theorem allFileMapFiles_swallows_errors_witness :
    allFileMapFiles
        (fun p _ => if p = "[bad" then .error () else .ok ["a.js"])
        "root" [⟨"dist", ["[bad"]⟩, ⟨"src", ["*.js"]⟩]
      = allFileMapFiles
          (fun p _ => if p = "[bad" then .error () else .ok ["a.js"])
          "root" [⟨"dist", []⟩, ⟨"src", ["*.js"]⟩] :=
  allFileMapFiles_swallows_errors
    (fun p _ => if p = "[bad" then .error () else .ok ["a.js"])
    "root" [] [⟨"src", ["*.js"]⟩] "dist" [] [] "[bad" (by decide)

/-- Claim C1 counterexample: a package whose package-level document and
latest-version document both define `description`. The claim predicts
the stored value is the version one (`version description`); the code
stores the package-level one, because `jsonData` is spread after
`jsonVersionData` in the merge. -/
theorem npm_merge_version_precedence_counterexample :
    (match npm "lib"
        { name := "lib", distTagsLatest := "2.0.0",
          versions := [("2.0.0",
            { fields := { description := some "version description" },
              dist := some "lib-2.0.0.tgz" })],
          fields := { description := some "package description" } }
        [⟨"", ["*.js"]⟩] "" with
     | .ok (some r) => some r.description
     | _ => none) = some "package description"
    ∧ ("package description" : String) ≠ "version description" :=
  ⟨by decide, by decide⟩

/-- Claim C1 amended theorem: in the merged document feeding the
description, keywords, license, homepage and repository fields, a field
defined by the package-level document wins; the version document's
value is used only when the package-level document lacks the field. -/
theorem mergeDocs_package_precedence :
    ∀ ver pkg : DocFields,
      (pkg.description.isSome → (mergeDocs ver pkg).description = pkg.description)
      ∧ (pkg.description = none → (mergeDocs ver pkg).description = ver.description)
      ∧ (pkg.keywords.isSome → (mergeDocs ver pkg).keywords = pkg.keywords)
      ∧ (pkg.keywords = none → (mergeDocs ver pkg).keywords = ver.keywords)
      ∧ (pkg.license.isSome → (mergeDocs ver pkg).license = pkg.license)
      ∧ (pkg.license = none → (mergeDocs ver pkg).license = ver.license)
      ∧ (pkg.homepage.isSome → (mergeDocs ver pkg).homepage = pkg.homepage)
      ∧ (pkg.homepage = none → (mergeDocs ver pkg).homepage = ver.homepage)
      ∧ (pkg.repository.isSome → (mergeDocs ver pkg).repository = pkg.repository)
      ∧ (pkg.repository = none → (mergeDocs ver pkg).repository = ver.repository) := by
  intro ver pkg
  refine ⟨?_, ?_, ?_, ?_, ?_, ?_, ?_, ?_, ?_, ?_⟩ <;> intro h
  · rcases Option.isSome_iff_exists.mp h with ⟨v, hv⟩
    simp [mergeDocs, mergeField, hv]
  · simp [mergeDocs, mergeField, h]
  · rcases Option.isSome_iff_exists.mp h with ⟨v, hv⟩
    simp [mergeDocs, mergeField, hv]
  · simp [mergeDocs, mergeField, h]
  · rcases Option.isSome_iff_exists.mp h with ⟨v, hv⟩
    simp [mergeDocs, mergeField, hv]
  · simp [mergeDocs, mergeField, h]
  · rcases Option.isSome_iff_exists.mp h with ⟨v, hv⟩
    simp [mergeDocs, mergeField, hv]
  · simp [mergeDocs, mergeField, h]
  · rcases Option.isSome_iff_exists.mp h with ⟨v, hv⟩
    simp [mergeDocs, mergeField, hv]
  · simp [mergeDocs, mergeField, h]

/-- Claim C1 amended-theorem witness: with both documents defining a
description, the merge keeps the package one; with the package document
lacking it, the version one is used. -/
theorem mergeDocs_package_precedence_witness :
    (mergeDocs { description := some "vd" } { description := some "pd" }).description
      = some "pd"
    ∧ (mergeDocs { description := some "vd" } {}).description = some "vd" :=
  ⟨(mergeDocs_package_precedence { description := some "vd" }
      { description := some "pd" }).1 (by decide),
   (mergeDocs_package_precedence { description := some "vd" } {}).2.1 rfl⟩

/-- Claim C2 counterexample: the abort-on-error check covers only the
single package-level response; a version document that itself carries
an error field does not prevent a record from being produced. -/
theorem npm_version_error_unchecked_counterexample :
    npm "lib"
        { name := "lib", distTagsLatest := "1.0.0",
          versions := [("1.0.0",
            { dist := some "lib-1.0.0.tgz", error := some "version not found" })] }
        [⟨"", ["*.js"]⟩] "" ≠ .ok none
    ∧ npm "lib"
        { name := "lib", distTagsLatest := "1.0.0",
          versions := [("1.0.0",
            { dist := some "lib-1.0.0.tgz", error := some "version not found" })] }
        [⟨"", ["*.js"]⟩] "" ≠ .error ()
    ∧ (List.lookup "1.0.0"
        [("1.0.0",
          ({ dist := some "lib-1.0.0.tgz",
             error := some "version not found" } : NpmVersionDoc))]).map
        NpmVersionDoc.error
      = some (some "version not found") :=
  ⟨by decide, by decide, by decide⟩

/-- Claim C2 amended theorem: the npm variant performs one registry
fetch; whenever that package-level response carries a truthy error
field it aborts and returns no record (and nothing is thrown). -/
theorem npm_error_abort :
    ∀ (cdnjsName : String) (pkg : NpmPkgDoc) (fileMap : List FileMapEntry)
      (defaultFile : String),
      jsTruthyStr pkg.error = true →
      npm cdnjsName pkg fileMap defaultFile = .ok none := by
  intro cdnjsName pkg fileMap defaultFile h
  unfold npm
  rw [if_pos h]

/-- Claim C2 amended-theorem witness: a registry error document aborts
the assembly with no record. -/
theorem npm_error_abort_witness :
    npm "lib" { error := some "Not found" } [] "" = .ok none :=
  npm_error_abort "lib" { error := some "Not found" } [] "" (by decide)

/-- Claim C3 counterexample: for a concrete record, the file content
createPR would submit is not literally identical to the string the
fallback prints: the submitted content carries one extra trailing
newline. -/
theorem createPR_print_exact_equality_counterexample :
    createPRFileContent
        { name := "lib", description := "", keywords := [], license := "",
          homepage := "", repository := {}, authors := [],
          autoupdate := ⟨"npm", "lib", [⟨"", ["*.js"]⟩]⟩ }
      ≠ mainFallbackBody
          { name := "lib", description := "", keywords := [], license := "",
            homepage := "", repository := {}, authors := [],
            autoupdate := ⟨"npm", "lib", [⟨"", ["*.js"]⟩]⟩ } := by
  intro h
  have h2 := congrArg String.length h
  rw [createPRFileContent, mainFallbackBody, String.length_append] at h2
  simp at h2
  exact absurd h2 (by decide)

/-- Claim C3 amended theorem: on a pull-request failure the record is
never lost: main prints the same target path createPR would have used
(lowercased first character sharding) and the same JSON serialization;
the only difference is the single trailing newline createPR appends to
the submitted file content. -/
theorem publish_failure_preserves_record :
    ∀ d : CdnjsData,
      mainFallbackPath d = createPRFilePath d
      ∧ createPRFileContent d = mainFallbackBody d ++ "\n"
      ∧ mainPublish d (.error ())
          = ["Failed to create automatic PR",
             "Create new file on cdnjs/packages: " ++ createPRFilePath d,
             mainFallbackBody d] :=
  fun _ => ⟨rfl, rfl, rfl⟩
